import Mathlib

/-!
Verification of the client-side data-synchronization layer of the
arbitraggio-oggetti dashboard (a React frontend in
src/frontend/src/pages and src/frontend/src/services/api.ts, plus the
unnamed Settings/Orders/Dashboard pages).

The pages declare their queries and mutations declaratively; the cache,
in-flight deduplication and stale-response handling are supplied by the
data-fetching library, which is not part of the source tree, so those
behaviours are modelled from the spec (sections 4.2, 4.3, 4.4 and 5).
The invalidation key sets, the filter/sort logic of the Opportunities
page, the pagination logic of the Items page and the shape of the HTTP
client interface are embedded directly from the source files.
-/

namespace Arbitraggio

/-- A cache key: the resource-kind name used in the source
(for example `pending-items`, `dashboard-stats`, `opportunities`,
`scheduler-status`, `orders`) together with a numeric parameter
such as the page number; parameterless keys use `0`. -/
structure QKey where
  kind : String
  page : Nat
deriving DecidableEq, Repr

/-- A cached query entry: the last fetched payload (abstracted to a
natural number) and its staleness flag.
Modelled from the spec: section 3, Cached Query Entry. -/
structure Entry where
  data : Nat
  stale : Bool
deriving DecidableEq, Repr

/-- Association-list lookup keyed by `QKey`. -/
def aget {α : Type} : List (QKey × α) → QKey → Option α
  | [], _ => none
  | (k, v) :: rest, k' => if k = k' then some v else aget rest k'

/-- Association-list insert/replace keyed by `QKey`. -/
def aput {α : Type} : List (QKey × α) → QKey → α → List (QKey × α)
  | [], k, v => [(k, v)]
  | (k0, v0) :: rest, k, v =>
      if k0 = k then (k, v) :: rest else (k0, v0) :: aput rest k v

/-- Association-list delete keyed by `QKey`. -/
def adel {α : Type} (m : List (QKey × α)) (k : QKey) : List (QKey × α) :=
  m.filter (fun p => decide (p.1 ≠ k))

/-- Modelled from the spec: the process-wide Cached Query Store
(section 4.2) with, per key, the last-known entry, the generation of the
most recently issued request (section 5, request-generation tagging),
and the generation of the outstanding fetch if one is in flight.
`requestCount` counts network requests issued, for the single-flight
invariant. The store itself is supplied by the data-fetching library
and is not part of the source tree. -/
structure Store where
  entries : List (QKey × Entry)
  gen : List (QKey × Nat)
  inflight : List (QKey × Nat)
  requestCount : Nat
deriving DecidableEq, Repr

/-- Modelled from the spec: a fetch is needed when the entry is absent
or marked stale (section 4.2). -/
def needsFetch (s : Store) (k : QKey) : Bool :=
  match aget s.entries k with
  | none => true
  | some e => e.stale

/-- Modelled from the spec: issue a network request for `k`, tagging it
with a fresh generation (section 5) and recording it as the in-flight
fetch for the key. -/
def issueFetch (s : Store) (k : QKey) : Store :=
  { s with
      gen := aput s.gen k ((aget s.gen k).getD 0 + 1)
      inflight := aput s.inflight k ((aget s.gen k).getD 0 + 1)
      requestCount := s.requestCount + 1 }

/-- Modelled from the spec: `resolve` returns the current cached value
immediately if present and triggers a background fetch when the entry
is absent or stale; a second `resolve` while a fetch is outstanding
joins the existing fetch instead of issuing a duplicate request
(section 4.2). -/
def resolve (s : Store) (k : QKey) : Store × Option Nat :=
  let cached := (aget s.entries k).map (fun e => e.data)
  if needsFetch s k then
    match aget s.inflight k with
    | some _ => (s, cached)
    | none => (issueFetch s k, cached)
  else (s, cached)

/-- Modelled from the spec: re-triggering the same query key before a
prior fetch resolves (remount or navigation) issues a new request whose
generation supersedes the outstanding one (section 5). -/
def retrigger (s : Store) (k : QKey) : Store :=
  issueFetch s k

/-- Modelled from the spec: a fetch response tagged with generation `g`
is applied only when `g` is still the key's current generation;
a late-arriving response for a superseded request is discarded
(section 5, stale-response rejection by request-generation tagging). -/
def applyResponse (s : Store) (k : QKey) (g : Nat) (v : Nat) : Store :=
  if aget s.gen k = some g then
    { s with
        entries := aput s.entries k ⟨v, false⟩
        inflight := adel s.inflight k }
  else s

/-- Modelled from the spec: `invalidate(keyPattern)` marks every entry
whose resource-kind matches the pattern stale (all pages at once, the
`items:list:pending:*` star), provoking a re-fetch on the next read
(section 4.2). -/
def invalidateKind (s : Store) (kind : String) : Store :=
  { s with
      entries := s.entries.map (fun p =>
        if p.1.kind = kind then (p.1, { p.2 with stale := true }) else p) }

/-- Apply a list of declarative invalidations in order. -/
def applyInvalidations (s : Store) (kinds : List String) : Store :=
  kinds.foldl invalidateKind s

/-- Result of a state-changing call as seen by the Mutation Dispatcher:
success with a payload, or failure with a status code. -/
inductive MutResult
  | ok (v : Nat)
  | err (code : Nat)
deriving DecidableEq, Repr

/-- A mutation configuration as registered by a page component:
whether the source registers an optimistic cache write before server
confirmation (an `onMutate` handler), and the cache kinds invalidated
on success and on error. -/
structure MutationConfig where
  name : String
  optimisticUpdate : Bool
  onSuccessInvalidations : List String
  onErrorInvalidations : List String
deriving DecidableEq, Repr

/-- Items page approve mutation: on success invalidates the
pending-items list and the dashboard stats
(src/frontend/src/pages/Items.tsx lines 179 to 185). -/
def itemsApproveConfig : MutationConfig :=
  ⟨"items.approve", false, ["pending-items", "dashboard-stats"], []⟩

/-- Items page reject mutation (src/frontend/src/pages/Items.tsx
lines 187 to 192). -/
def itemsRejectConfig : MutationConfig :=
  ⟨"items.reject", false, ["pending-items"], []⟩

/-- Opportunities page analyze mutation
(src/frontend/src/pages/Opportunities.tsx lines 205 to 212). -/
def opportunitiesAnalyzeConfig : MutationConfig :=
  ⟨"opportunities.analyze", false, ["opportunities", "pending-items"], []⟩

/-- Opportunities page approve mutation: on success invalidates the
opportunities list and the pending-items list, and nothing else
(src/frontend/src/pages/Opportunities.tsx lines 214 to 220). -/
def opportunitiesApproveConfig : MutationConfig :=
  ⟨"opportunities.approve", false, ["opportunities", "pending-items"], []⟩

/-- Opportunities page reject mutation
(src/frontend/src/pages/Opportunities.tsx lines 222 to 228). -/
def opportunitiesRejectConfig : MutationConfig :=
  ⟨"opportunities.reject", false, ["opportunities", "pending-items"], []⟩

/-- Orders page complete mutation: on success invalidates the orders
list and the dashboard stats (Orders page, src/unnamed/part_004
lines 51 to 57). -/
def ordersCompleteConfig : MutationConfig :=
  ⟨"orders.complete", false, ["orders", "dashboard-stats"], []⟩

/-- Settings page scheduler start mutation (src/unnamed/part_001). -/
def schedulerStartConfig : MutationConfig :=
  ⟨"scheduler.start", false, ["scheduler-status"], []⟩

/-- Settings page scheduler stop mutation (src/unnamed/part_001). -/
def schedulerStopConfig : MutationConfig :=
  ⟨"scheduler.stop", false, ["scheduler-status"], []⟩

/-- Settings page telegram test mutation (src/unnamed/part_001):
no invalidation, only alerts. -/
def testTelegramConfig : MutationConfig :=
  ⟨"scheduler.testTelegram", false, [], []⟩

/-- Settings page category-scrape mutation (src/unnamed/part_001). -/
def scrapeCategoryConfig : MutationConfig :=
  ⟨"scheduler.scrapeCategory", false, ["pending-items"], []⟩

/-- Dashboard page scraper start mutation (Dashboard component in
src/frontend/src/pages, second part of the Opportunities source file):
no cache invalidation, only local component state. -/
def scraperStartConfig : MutationConfig :=
  ⟨"scraper.start", false, [], []⟩

/-- Every mutation registered by the dashboard's pages, embedded from
the source. -/
def mutationConfigs : List MutationConfig :=
  [itemsApproveConfig, itemsRejectConfig,
   opportunitiesAnalyzeConfig, opportunitiesApproveConfig,
   opportunitiesRejectConfig, ordersCompleteConfig,
   schedulerStartConfig, schedulerStopConfig,
   testTelegramConfig, scrapeCategoryConfig, scraperStartConfig]

/-- The approve-mutation instances of the claim: the Items page approve
and the Opportunities page approve. -/
def approveMutationConfigs : List MutationConfig :=
  [itemsApproveConfig, opportunitiesApproveConfig]

/-- Modelled from the spec: the cache state observed between
dispatching a mutation and receiving the server result. A dispatcher
with an optimistic update would speculatively overwrite the affected
entries here (represented as a speculative data overwrite); a config
without one leaves the store untouched until confirmation
(section 4.3). -/
def storeDuringMutation (s : Store) (cfg : MutationConfig) : Store :=
  if cfg.optimisticUpdate then
    { s with entries := s.entries.map (fun p => (p.1, ⟨p.2.data + 1, p.2.stale⟩)) }
  else s

/-- Modelled from the spec: settling a dispatched mutation. On success
the config's declared invalidations are applied; on failure the store
is left exactly as it was and the error code is surfaced to the caller
(section 4.3, confirm-then-invalidate, no retry, no cache mutation on
failure). -/
def settleMutation (s : Store) (cfg : MutationConfig) (r : MutResult) :
    Store × Option Nat :=
  match r with
  | .ok _ => (applyInvalidations s cfg.onSuccessInvalidations, none)
  | .err c => (applyInvalidations s cfg.onErrorInvalidations, some c)

/-- Outcome of a transport attempt: the server was unreachable, or it
answered with an HTTP status code. The transport itself is supplied by
the HTTP client library behind `api` in
src/frontend/src/services/api.ts. -/
inductive TransportOutcome
  | unreachable
  | response (status : Nat)
deriving DecidableEq, Repr

/-- Modelled from the spec: the error taxonomy of the Remote Resource
Client (sections 4.1 and 7): NetworkError when the transport cannot
reach the server, ClientError for 4xx responses, ServerError for 5xx
responses. -/
inductive ApiError
  | networkError
  | clientError (status : Nat)
  | serverError (status : Nat)
deriving DecidableEq, Repr

/-- Modelled from the spec: classify a transport outcome; `none` means
the call succeeded (a non-error status). -/
def classifyOutcome : TransportOutcome → Option ApiError
  | .unreachable => some .networkError
  | .response st =>
      if 400 ≤ st ∧ st < 500 then some (.clientError st)
      else if 500 ≤ st ∧ st < 600 then some (.serverError st)
      else none

/-- Modelled from the spec: one Remote Resource Client call. The first
component is the number of transport attempts performed:
src/frontend/src/services/api.ts creates the client with no retry
interceptor, so a call performs exactly one attempt whatever the
outcome (section 4.1, no retry inside the component). -/
def performRequest (o : TransportOutcome) : Nat × Option ApiError :=
  (1, classifyOutcome o)

/-- A paginated list response, shape embedded from `ItemListResponse`
in src/frontend/src/services/api.ts lines 42 to 48 (the listings and
orders payloads share this shape with the collection field renamed). -/
structure ListResponse (α : Type) where
  items : List α
  total : Nat
  page : Nat
  per_page : Nat
  pages : Nat

/-- Modelled from the spec: the backend's paginated list endpoint
(sections 4.1 and 6), which is not part of the source tree. Given the
full collection it returns the requested page slice, the total count
and `pages = ceil(total / per_page)`. -/
def paginate {α : Type} (all : List α) (page per_page : Nat) :
    ListResponse α :=
  { items := (all.drop ((page - 1) * per_page)).take per_page
    total := all.length
    page := page
    per_page := per_page
    pages := (all.length + per_page - 1) / per_page }

/-- Item lifecycle statuses relevant to the triage workflow
(src/frontend/src/services/api.ts `Item.status`). -/
inductive ItemStatus
  | pending
  | approved
  | rejected
deriving DecidableEq, Repr

/-- The operations of the `itemsApi` client interface, embedded from
src/frontend/src/services/api.ts lines 114 to 145. -/
inductive ItemsApiOp
  | getAll (status : Option String) (page : Option Nat) (perPage : Option Nat)
  | getPending (page : Option Nat) (perPage : Option Nat)
  | getById (id : String)
  | approve (id : String)
  | reject (id : String) (reason : Option String)
  | del (id : String)
deriving DecidableEq, Repr

/-- The status transition an `itemsApi` operation asks the server for,
as source and target status. The target statuses are embedded from the
endpoints the source calls (`POST /items/id/approve`,
`POST /items/id/reject`); the source status is the spec's triage
precondition (section 3: pending → approved | rejected). Read
operations and delete request no status transition. -/
def requestedTransition : ItemsApiOp → Option (ItemStatus × ItemStatus)
  | .approve _ => some (.pending, .approved)
  | .reject _ _ => some (.pending, .rejected)
  | _ => none

/-- An Item as consumed by the Opportunities page, embedded from the
`Item` interface in src/frontend/src/services/api.ts (restricted to
the fields the page logic reads: `ai_score` is `number | null`). -/
structure Item where
  id : String
  original_price : Int
  ai_score : Option Int
  status : String
deriving DecidableEq, Repr

/-- The filter predicate of the Opportunities page, embedded from
`item.ai_score && item.ai_score >= 60`
(src/frontend/src/pages/Opportunities.tsx line 231): a null or zero
score is falsy and excluded, otherwise the score must be at least 60. -/
def scoreTruthyAtLeast60 : Option Int → Bool
  | none => false
  | some s => if s = 0 then false else decide (60 ≤ s)

/-- `analyzedItems`, embedded from
src/frontend/src/pages/Opportunities.tsx line 231. -/
def analyzedItems (items : List Item) : List Item :=
  items.filter (fun it => scoreTruthyAtLeast60 it.ai_score)

/-- `(x.ai_score || 0)`, the score defaulting used by the sort
comparator (src/frontend/src/pages/Opportunities.tsx line 345). -/
def scoreOrZero (it : Item) : Int :=
  it.ai_score.getD 0

/-- The order in which the Opportunities grid places cards: `a` may
come before `b` when the comparator
`(b.ai_score || 0) - (a.ai_score || 0)` is non-positive, embedded from
src/frontend/src/pages/Opportunities.tsx line 345. -/
def oppBefore (a b : Item) : Prop :=
  scoreOrZero b ≤ scoreOrZero a

instance : DecidableRel oppBefore := fun a b =>
  inferInstanceAs (Decidable (scoreOrZero b ≤ scoreOrZero a))

instance : IsTotal Item oppBefore :=
  ⟨fun a b => le_total (scoreOrZero b) (scoreOrZero a)⟩

instance : IsTrans Item oppBefore :=
  ⟨fun _ _ _ hab hbc => le_trans hbc hab⟩

/-- The card list the Opportunities grid renders: the analyzed items
sorted by descending score, embedded from
src/frontend/src/pages/Opportunities.tsx lines 344 to 345. -/
def renderedOpportunities (items : List Item) : List Item :=
  List.insertionSort oppBefore (analyzedItems items)

/-- The component state of the Items page that pagination touches:
the `page` state (initialised to 1) and the `pages` field of the data
currently present, `none` while no data is shown
(src/frontend/src/pages/Items.tsx lines 171, 174 to 177). -/
structure ItemsPageState where
  page : Nat
  dataPages : Option Nat
deriving DecidableEq, Repr

/-- Events of the Items page pagination: a previous/next click, or a
fetched response for the current page reporting a `pages` count. -/
inductive PageEvent
  | prevClick
  | nextClick
  | response (pages : Nat)
deriving DecidableEq, Repr

/-- One step of the Items page pagination, embedded from
src/frontend/src/pages/Items.tsx lines 236 to 256: the pagination
block renders only when data is present with `pages > 1`; previous is
disabled at `page === 1` and sets `Math.max(1, page - 1)`; next is
disabled at `page === data.pages` and sets
`Math.min(data.pages, page + 1)`. A page change switches the query key,
so the shown data becomes absent until the response for the new page
arrives; a response event installs its `pages` count. -/
def stepItemsPage (s : ItemsPageState) (e : PageEvent) : ItemsPageState :=
  match e with
  | .response pg => { s with dataPages := some pg }
  | .prevClick =>
      match s.dataPages with
      | none => s
      | some pg =>
          if 1 < pg ∧ s.page ≠ 1 then
            { page := max 1 (s.page - 1), dataPages := none }
          else s
  | .nextClick =>
      match s.dataPages with
      | none => s
      | some pg =>
          if 1 < pg ∧ s.page ≠ pg then
            { page := min pg (s.page + 1), dataPages := none }
          else s

/-- The Items page state after a sequence of pagination events,
starting from `page = 1` with no data yet. -/
def runItemsPage (events : List PageEvent) : ItemsPageState :=
  events.foldl stepItemsPage ⟨1, none⟩

/-- The invariant of the Items pagination under responses that all
report the same pages count `P`: the page never exceeds `P`, and any
data present reports exactly `P` pages. -/
def pageInv (P : Nat) (s : ItemsPageState) : Prop :=
  s.page ≤ P ∧ ∀ pg, s.dataPages = some pg → pg = P

/-- An event trace for the Items pagination: five pages are reported,
the user clicks next four times reaching page 5, then a refetched
response (after items were approved elsewhere) reports only 3 pages. -/
def c10trace : List PageEvent :=
  [.response 5, .nextClick, .response 5, .nextClick, .response 5,
   .nextClick, .response 5, .nextClick, .response 3]

lemma aget_aput_self {α : Type} (m : List (QKey × α)) (k : QKey) (v : α) :
    aget (aput m k v) k = some v := by
  induction m with
  | nil => simp [aput, aget]
  | cons p rest ih =>
    obtain ⟨k0, v0⟩ := p
    by_cases h : k0 = k
    · simp [aput, h, aget]
    · simp [aput, h, aget, ih]

lemma aget_map_markStale (m : List (QKey × Entry)) (kd : String) (k : QKey) :
    aget (m.map (fun p =>
        if p.1.kind = kd then (p.1, { p.2 with stale := true }) else p)) k =
      (aget m k).map (fun e => if k.kind = kd then { e with stale := true } else e) := by
  induction m with
  | nil => simp [aget]
  | cons p rest ih =>
    obtain ⟨k0, e0⟩ := p
    simp only [List.map_cons]
    by_cases hkd : k0.kind = kd
    · rw [if_pos hkd]
      by_cases hk : k0 = k
      · subst hk
        simp [aget, hkd]
      · simp [aget, hk, ih]
    · rw [if_neg hkd]
      by_cases hk : k0 = k
      · subst hk
        simp [aget, hkd]
      · simp [aget, hk, ih]

lemma aget_entries_invalidateKind (s : Store) (kd : String) (k : QKey) :
    aget (invalidateKind s kd).entries k =
      (aget s.entries k).map (fun e => if k.kind = kd then { e with stale := true } else e) := by
  simpa [invalidateKind] using aget_map_markStale s.entries kd k

lemma scoreTruthyAtLeast60_iff (o : Option Int) :
    scoreTruthyAtLeast60 o = true ↔ ∃ s : Int, o = some s ∧ 60 ≤ s := by
  cases o with
  | none => simp [scoreTruthyAtLeast60]
  | some s =>
    simp only [scoreTruthyAtLeast60, Option.some.injEq]
    constructor
    · intro h
      refine ⟨s, rfl, ?_⟩
      by_cases h0 : s = 0
      · simp [h0] at h
      · simpa [h0] using h
    · rintro ⟨t, ht, hts⟩
      subst ht
      have h0 : s ≠ 0 := by omega
      simpa [h0] using hts

lemma applyResponse_discard (s : Store) (k : QKey) (g v : Nat)
    (h : ¬ aget s.gen k = some g) : applyResponse s k g v = s := by
  unfold applyResponse
  rw [if_neg h]

lemma applyResponse_gen (s : Store) (k : QKey) (g v : Nat) :
    (applyResponse s k g v).gen = s.gen := by
  unfold applyResponse
  split <;> rfl

lemma resolve_fetches (s : Store) (k : QKey)
    (hnf : needsFetch s k = true) (hi : aget s.inflight k = none) :
    (resolve s k).1 = issueFetch s k := by
  simp [resolve, hnf, hi]

lemma resolve_joins (s : Store) (k : QKey) (g : Nat)
    (hnf : needsFetch s k = true) (hi : aget s.inflight k = some g) :
    (resolve s k).1 = s := by
  simp [resolve, hnf, hi]

/-- C1, counterexample: the claim requires every successful approve
mutation to invalidate both the pending-items key and the
dashboard-stats key, but the Opportunities page approve mutation
(src/frontend/src/pages/Opportunities.tsx lines 214 to 220) invalidates
only the opportunities and pending-items keys, not dashboard-stats. -/
theorem c1_counterexample :
    opportunitiesApproveConfig ∈ approveMutationConfigs ∧
    "dashboard-stats" ∉ opportunitiesApproveConfig.onSuccessInvalidations := by
  decide

/-- C1 (amended): every successful approve mutation invalidates the
pending-items list key; the Items page approve mutation additionally
invalidates dashboard-stats (the Opportunities page approve invalidates
the opportunities key instead). Invalidating pending-items marks every
cached pending-items page stale, so the next read of any
previously-served pending-items query issues a fresh fetch rather than
returning the pre-mutation cached value. -/
theorem c1_approve_invalidation
    (s : Store) (p : Nat) (e : Entry) (v : Nat)
    (hentry : aget s.entries ⟨"pending-items", p⟩ = some e)
    (hinflight : aget s.inflight ⟨"pending-items", p⟩ = none) :
    (∀ cfg ∈ approveMutationConfigs, "pending-items" ∈ cfg.onSuccessInvalidations) ∧
    "dashboard-stats" ∈ itemsApproveConfig.onSuccessInvalidations ∧
    aget (settleMutation s itemsApproveConfig (.ok v)).1.entries ⟨"pending-items", p⟩
      = some ⟨e.data, true⟩ ∧
    (resolve (settleMutation s itemsApproveConfig (.ok v)).1 ⟨"pending-items", p⟩).1.requestCount
      = s.requestCount + 1 := by
  refine ⟨by decide, by decide, ?_⟩
  have hs2 : (settleMutation s itemsApproveConfig (.ok v)).1
      = invalidateKind (invalidateKind s "pending-items") "dashboard-stats" := rfl
  have h1 : aget (invalidateKind s "pending-items").entries ⟨"pending-items", p⟩
      = some { data := e.data, stale := true } := by
    rw [aget_entries_invalidateKind, hentry]
    simp
  have h2 : aget (invalidateKind (invalidateKind s "pending-items")
        "dashboard-stats").entries ⟨"pending-items", p⟩
      = some { data := e.data, stale := true } := by
    rw [aget_entries_invalidateKind, h1]
    simp
  rw [hs2]
  refine ⟨h2, ?_⟩
  have hinf : aget (invalidateKind (invalidateKind s "pending-items")
      "dashboard-stats").inflight ⟨"pending-items", p⟩ = none := hinflight
  have hnf : needsFetch (invalidateKind (invalidateKind s "pending-items")
      "dashboard-stats") ⟨"pending-items", p⟩ = true := by
    simp [needsFetch, h2]
  rw [resolve_fetches _ _ hnf hinf]
  rfl

/-- C1, witness: a concrete store with one fresh pending-items entry;
a successful Items page approve marks it stale and the next resolve
issues a network request. -/
theorem c1_witness :
    (resolve (settleMutation ⟨[(⟨"pending-items", 1⟩, ⟨5, false⟩)], [], [], 0⟩
        itemsApproveConfig (.ok 7)).1 ⟨"pending-items", 1⟩).1.requestCount = 0 + 1 :=
  (c1_approve_invalidation ⟨[(⟨"pending-items", 1⟩, ⟨5, false⟩)], [], [], 0⟩
    1 ⟨5, false⟩ 7 (by decide) (by decide)).2.2.2

/-- C2: a failed mutation call, for any mutation registered by the
dashboard's pages (in particular the Orders page order-complete
mutation failing with a 500), leaves the store exactly as it was —
no cache entry modified and no key invalidated — and surfaces the
error code to the caller. -/
theorem c2_failed_mutation_leaves_cache
    (s : Store) (cfg : MutationConfig) (c : Nat)
    (hmem : cfg ∈ mutationConfigs) :
    settleMutation s cfg (.err c) = (s, some c) := by
  fin_cases hmem <;> rfl

/-- C2, witness: a failed order-complete (500) on a store caching
order state leaves the store unchanged and surfaces the error. -/
theorem c2_witness :
    settleMutation ⟨[(⟨"orders", 0⟩, ⟨3, false⟩)], [], [], 2⟩
        ordersCompleteConfig (.err 500)
      = (⟨[(⟨"orders", 0⟩, ⟨3, false⟩)], [], [], 2⟩, some 500) :=
  c2_failed_mutation_leaves_cache _ _ _ (by decide)

/-- C3: with a request of generation `g` outstanding for key `k`,
issuing a second request (generation `g + 1`) before the first
response arrives causes the first request's late response to be
discarded — applying it leaves the store untouched, even after the
second response has been applied — while the second request's
response does land in the cache: responses are applied in
request-issue order, never out of order. -/
theorem c3_stale_response_rejected
    (s : Store) (k : QKey) (g v : Nat)
    (hinf : aget s.inflight k = some g)
    (hgen : aget s.gen k = some g) :
    applyResponse (retrigger s k) k g v = retrigger s k ∧
    (∀ w, aget (applyResponse (retrigger s k) k (g + 1) w).entries k = some ⟨w, false⟩) ∧
    (∀ w w', applyResponse (applyResponse (retrigger s k) k (g + 1) w') k g w
      = applyResponse (retrigger s k) k (g + 1) w') := by
  have hgen2 : aget (retrigger s k).gen k = some (g + 1) := by
    simp [retrigger, issueFetch, hgen, aget_aput_self]
  have hne : ¬ aget (retrigger s k).gen k = some g := by
    rw [hgen2]
    intro h
    exact absurd (Option.some.inj h) (by omega)
  refine ⟨?_, ?_, ?_⟩
  · exact applyResponse_discard _ _ _ _ hne
  · intro w
    unfold applyResponse
    rw [if_pos hgen2]
    exact aget_aput_self _ _ _
  · intro w w'
    apply applyResponse_discard
    rw [applyResponse_gen]
    exact hne

/-- C3, witness: a concrete store with generation-1 request
outstanding; after a second request, the generation-1 response is
discarded. -/
theorem c3_witness :
    applyResponse (retrigger ⟨[], [(⟨"pending-items", 1⟩, 1)],
        [(⟨"pending-items", 1⟩, 1)], 1⟩ ⟨"pending-items", 1⟩)
      ⟨"pending-items", 1⟩ 1 99
    = retrigger ⟨[], [(⟨"pending-items", 1⟩, 1)],
        [(⟨"pending-items", 1⟩, 1)], 1⟩ ⟨"pending-items", 1⟩ :=
  (c3_stale_response_rejected _ ⟨"pending-items", 1⟩ 1 99
    (by decide) (by decide)).1

/-- C4: at most one fetch per key is in flight at a time. While a
fetch is outstanding, a further `resolve` for the same key leaves the
store untouched (it joins the existing fetch); and two consecutive
`resolve` calls for an identical key starting with no cached entry and
no outstanding fetch issue exactly one network request. -/
theorem c4_single_inflight_fetch (s : Store) (k : QKey) :
    (∀ g, aget s.inflight k = some g → (resolve s k).1 = s) ∧
    (aget s.entries k = none → aget s.inflight k = none →
      (resolve (resolve s k).1 k).1 = (resolve s k).1 ∧
      (resolve (resolve s k).1 k).1.requestCount = s.requestCount + 1) := by
  constructor
  · intro g hg
    rcases hb : needsFetch s k with _ | _
    · simp [resolve, hb]
    · simp [resolve, hb, hg]
  · intro he hi
    have hnf : needsFetch s k = true := by simp [needsFetch, he]
    have hr1 : (resolve s k).1 = issueFetch s k := by
      simp [resolve, hnf, hi]
    have he2 : aget (issueFetch s k).entries k = none := he
    have hnf2 : needsFetch (issueFetch s k) k = true := by
      simp [needsFetch, he2]
    have hi2 : aget (issueFetch s k).inflight k = some ((aget s.gen k).getD 0 + 1) := by
      simp [issueFetch, aget_aput_self]
    rw [hr1]
    have hjoin := resolve_joins (issueFetch s k) k ((aget s.gen k).getD 0 + 1) hnf2 hi2
    refine ⟨hjoin, ?_⟩
    rw [hjoin]
    rfl

/-- C4, witness: on the empty store, two consecutive resolves of the
scheduler-status key issue exactly one network request. -/
theorem c4_witness :
    (resolve (resolve ⟨[], [], [], 0⟩ ⟨"scheduler-status", 0⟩).1
        ⟨"scheduler-status", 0⟩).1.requestCount = 0 + 1 :=
  ((c4_single_inflight_fetch ⟨[], [], [], 0⟩ ⟨"scheduler-status", 0⟩).2
    (by decide) (by decide)).2

/-- C5: every failing Remote Resource Client operation is classified
into exactly one of the three error kinds — NetworkError when the
transport cannot reach the server, ClientError for 4xx responses,
ServerError for 5xx responses — and the client performs a single
transport attempt, never retrying a failed request. -/
theorem c5_error_taxonomy_no_retry :
    (∀ o : TransportOutcome, (performRequest o).1 = 1) ∧
    classifyOutcome .unreachable = some .networkError ∧
    (∀ st, 400 ≤ st → st < 500 →
      classifyOutcome (.response st) = some (.clientError st)) ∧
    (∀ st, 500 ≤ st → st < 600 →
      classifyOutcome (.response st) = some (.serverError st)) ∧
    (∀ (o : TransportOutcome) (e e' : ApiError),
      classifyOutcome o = some e → classifyOutcome o = some e' → e = e') := by
  refine ⟨fun o => rfl, rfl, ?_, ?_, ?_⟩
  · intro st h1 h2
    simp only [classifyOutcome]
    rw [if_pos ⟨h1, h2⟩]
  · intro st h1 h2
    simp only [classifyOutcome]
    rw [if_neg (by omega), if_pos ⟨h1, h2⟩]
  · intro o e e' h h'
    rw [h] at h'
    exact Option.some.inj h'

/-- C5, witness: a 503 response is classified as a ServerError. -/
theorem c5_witness :
    classifyOutcome (.response 503) = some (.serverError 503) :=
  c5_error_taxonomy_no_retry.2.2.2.1 503 (by decide) (by decide)

/-- C6: no mutation registered by the dashboard's pages performs an
optimistic cache write — between dispatching the mutation and
receiving the server result the store is exactly what it was
(confirm-then-invalidate, never speculative update). -/
theorem c6_confirm_then_invalidate
    (cfg : MutationConfig) (hmem : cfg ∈ mutationConfigs) :
    cfg.optimisticUpdate = false ∧
    ∀ s : Store, storeDuringMutation s cfg = s := by
  have hopt : cfg.optimisticUpdate = false := by fin_cases hmem <;> rfl
  exact ⟨hopt, fun s => by simp [storeDuringMutation, hopt]⟩

/-- C6, witness: during an in-flight order-complete mutation the store
is untouched. -/
theorem c6_witness :
    storeDuringMutation ⟨[(⟨"orders", 0⟩, ⟨3, false⟩)], [], [], 2⟩
        ordersCompleteConfig
      = ⟨[(⟨"orders", 0⟩, ⟨3, false⟩)], [], [], 2⟩ :=
  (c6_confirm_then_invalidate ordersCompleteConfig (by decide)).2 _

/-- C7: a successful list query with `page = p` and `per_page = n`
(with `n` positive) returns at most `n` items, echoes `page` and
`per_page`, reports the collection size as `total`, and its `pages`
field is exactly `ceil(total / n)` — characterized as the unique
number with `total ≤ pages * n < total + n`. -/
theorem c7_pagination_bounds {α : Type} (all : List α) (p n : Nat)
    (hn : 0 < n) :
    (paginate all p n).items.length ≤ n ∧
    (paginate all p n).total = all.length ∧
    (paginate all p n).page = p ∧
    (paginate all p n).per_page = n ∧
    (paginate all p n).total ≤ (paginate all p n).pages * n ∧
    (paginate all p n).pages * n < (paginate all p n).total + n := by
  have h1 := Nat.div_add_mod (all.length + n - 1) n
  have h2 := Nat.mod_lt (all.length + n - 1) hn
  refine ⟨?_, rfl, rfl, rfl, ?_, ?_⟩
  · show ((all.drop ((p - 1) * n)).take n).length ≤ n
    rw [List.length_take]
    exact min_le_left _ _
  · show all.length ≤ (all.length + n - 1) / n * n
    rw [Nat.mul_comm]
    generalize (all.length + n - 1) / n = q at h1
    generalize (all.length + n - 1) % n = r at h1 h2
    generalize hm : n * q = m at h1
    omega
  · show (all.length + n - 1) / n * n < all.length + n
    rw [Nat.mul_comm]
    generalize (all.length + n - 1) / n = q at h1
    generalize (all.length + n - 1) % n = r at h1 h2
    generalize hm : n * q = m at h1
    omega

/-- C7, witness: a three-element collection paginated with
`per_page = 2` satisfies the bounds. -/
theorem c7_witness :
    (paginate [10, 20, 30] 1 2).items.length ≤ 2 ∧
    (paginate [10, 20, 30] 1 2).total ≤ (paginate [10, 20, 30] 1 2).pages * 2 ∧
    (paginate [10, 20, 30] 1 2).pages * 2 < (paginate [10, 20, 30] 1 2).total + 2 :=
  ⟨(c7_pagination_bounds [10, 20, 30] 1 2 (by decide)).1,
   (c7_pagination_bounds [10, 20, 30] 1 2 (by decide)).2.2.2.2.1,
   (c7_pagination_bounds [10, 20, 30] 1 2 (by decide)).2.2.2.2.2⟩

/-- C8: the only status transitions the `itemsApi` client interface
can request are pending to approved and pending to rejected; no
operation of the interface requests a transition whose target is
pending, so nothing can move an approved or rejected item back to
pending. -/
theorem c8_monotonic_transitions
    (op : ItemsApiOp) (src tgt : ItemStatus)
    (h : requestedTransition op = some (src, tgt)) :
    src = .pending ∧ (tgt = .approved ∨ tgt = .rejected) ∧ tgt ≠ .pending := by
  cases op with
  | approve id =>
    simp only [requestedTransition, Option.some.injEq, Prod.mk.injEq] at h
    obtain ⟨h1, h2⟩ := h
    subst h1
    subst h2
    exact ⟨rfl, Or.inl rfl, by decide⟩
  | reject id reason =>
    simp only [requestedTransition, Option.some.injEq, Prod.mk.injEq] at h
    obtain ⟨h1, h2⟩ := h
    subst h1
    subst h2
    exact ⟨rfl, Or.inr rfl, by decide⟩
  | getAll a b c => simp [requestedTransition] at h
  | getPending a b => simp [requestedTransition] at h
  | getById a => simp [requestedTransition] at h
  | del a => simp [requestedTransition] at h

/-- C8, witness: the approve operation on item 42 requests exactly the
pending-to-approved transition. -/
theorem c8_witness :
    ItemStatus.pending = ItemStatus.pending ∧
    (ItemStatus.approved = ItemStatus.approved ∨
      ItemStatus.approved = ItemStatus.rejected) ∧
    ItemStatus.approved ≠ ItemStatus.pending :=
  c8_monotonic_transitions (.approve "42") .pending .approved rfl

/-- C9: on the Opportunities page an item is rendered as an
opportunity card exactly when its ai_score is present and at least 60,
and the rendered cards are in non-increasing score order. -/
theorem c9_opportunities_render (items : List Item) (it : Item) :
    (it ∈ renderedOpportunities items ↔
      it ∈ items ∧ ∃ s : Int, it.ai_score = some s ∧ 60 ≤ s) ∧
    (renderedOpportunities items).Sorted oppBefore := by
  constructor
  · simp only [renderedOpportunities, List.mem_insertionSort, analyzedItems,
      List.mem_filter, scoreTruthyAtLeast60_iff]
  · exact List.sorted_insertionSort oppBefore _

/-- C9, witness: an item with score 80 is rendered. -/
theorem c9_witness :
    (⟨"a", 10, some 80, "pending"⟩ : Item) ∈
      renderedOpportunities [⟨"a", 10, some 80, "pending"⟩] :=
  (c9_opportunities_render [⟨"a", 10, some 80, "pending"⟩]
      ⟨"a", 10, some 80, "pending"⟩).1.mpr
    ⟨by decide, 80, rfl, by decide⟩

lemma stepItemsPage_page_pos (s : ItemsPageState) (e : PageEvent)
    (hs : 1 ≤ s.page) : 1 ≤ (stepItemsPage s e).page := by
  cases e with
  | response pg => exact hs
  | prevClick =>
    rcases hdp : s.dataPages with _ | pg
    · simpa [stepItemsPage, hdp] using hs
    · by_cases hc : 1 < pg ∧ s.page ≠ 1
      · simp [stepItemsPage, hdp, hc]
      · simpa [stepItemsPage, hdp, hc] using hs
  | nextClick =>
    rcases hdp : s.dataPages with _ | pg
    · simpa [stepItemsPage, hdp] using hs
    · by_cases hc : 1 < pg ∧ s.page ≠ pg
      · obtain ⟨hc1, hc2⟩ := hc
        simp only [stepItemsPage, hdp]
        rw [if_pos ⟨hc1, hc2⟩]
        show 1 ≤ min pg (s.page + 1)
        omega
      · simpa [stepItemsPage, hdp, hc] using hs

lemma foldl_itemsPage_page_pos (events : List PageEvent) :
    ∀ s : ItemsPageState, 1 ≤ s.page →
      1 ≤ (events.foldl stepItemsPage s).page := by
  induction events with
  | nil => exact fun s hs => hs
  | cons e rest ih =>
    intro s hs
    exact ih _ (stepItemsPage_page_pos s e hs)

lemma stepItemsPage_inv (P : Nat) (hP : 1 ≤ P)
    (s : ItemsPageState) (e : PageEvent) (hs : pageInv P s)
    (he : (match e with
           | PageEvent.response pg => decide (pg = P)
           | _ => true) = true) :
    pageInv P (stepItemsPage s e) := by
  obtain ⟨hpage, hdata⟩ := hs
  cases e with
  | response pg =>
    have hpg : pg = P := by simpa using he
    refine ⟨hpage, ?_⟩
    intro pg' h'
    simp only [stepItemsPage] at h'
    have hpg' := Option.some.inj h'
    omega
  | prevClick =>
    rcases hdp : s.dataPages with _ | pg
    · simpa [stepItemsPage, hdp] using ⟨hpage, hdata⟩
    · by_cases hc : 1 < pg ∧ s.page ≠ 1
      · refine ⟨?_, ?_⟩
        · simp only [stepItemsPage, hdp]
          rw [if_pos hc]
          show max 1 (s.page - 1) ≤ P
          omega
        · intro pg' h'
          simp only [stepItemsPage, hdp] at h'
          rw [if_pos hc] at h'
          cases h'
      · constructor
        · simpa [stepItemsPage, hdp, hc] using hpage
        · intro pg' h'
          simp only [stepItemsPage, hdp] at h'
          rw [if_neg hc] at h'
          exact hdata pg' h'
  | nextClick =>
    rcases hdp : s.dataPages with _ | pg
    · simpa [stepItemsPage, hdp] using ⟨hpage, hdata⟩
    · have hpg : pg = P := hdata pg hdp
      by_cases hc : 1 < pg ∧ s.page ≠ pg
      · refine ⟨?_, ?_⟩
        · simp only [stepItemsPage, hdp]
          rw [if_pos hc]
          show min pg (s.page + 1) ≤ P
          omega
        · intro pg' h'
          simp only [stepItemsPage, hdp] at h'
          rw [if_pos hc] at h'
          cases h'
      · constructor
        · simpa [stepItemsPage, hdp, hc] using hpage
        · intro pg' h'
          simp only [stepItemsPage, hdp] at h'
          rw [if_neg hc] at h'
          exact hdata pg' h'

lemma foldl_itemsPage_inv (P : Nat) (hP : 1 ≤ P) :
    ∀ (events : List PageEvent) (s : ItemsPageState), pageInv P s →
      (events.all fun e =>
        match e with
        | PageEvent.response pg => decide (pg = P)
        | _ => true) = true →
      pageInv P (events.foldl stepItemsPage s) := by
  intro events
  induction events with
  | nil => exact fun s hs _ => hs
  | cons e rest ih =>
    intro s hs hall
    rw [List.all_cons, Bool.and_eq_true] at hall
    exact ih _ (stepItemsPage_inv P hP s e hs hall.1) hall.2

/-- C10, counterexample: the claim asserts `page ≤ data.pages`
whenever data is present, for every click sequence and responses with
`pages ≥ 1`; on `c10trace` every response has `pages ≥ 1` yet the
final state has `page = 5` with data present reporting 3 pages. -/
theorem c10_counterexample :
    (c10trace.all fun e =>
      match e with
      | PageEvent.response pg => decide (1 ≤ pg)
      | _ => true) = true ∧
    (runItemsPage c10trace).page = 5 ∧
    (runItemsPage c10trace).dataPages = some 3 ∧
    ¬ (runItemsPage c10trace).page ≤ 3 := by
  decide

/-- C10 (amended): for every sequence of previous/next clicks and
fetched responses, `page ≥ 1` always holds; and when every fetched
response in the sequence reports the same pages count `P ≥ 1`, the
page also stays within `page ≤ data.pages` whenever data is present
(previous clamps at 1 and is disabled there; next clamps at
`data.pages` and is disabled there). A response lowering `pages` below
the current page can break the upper bound; no click can. -/
theorem c10_page_bounds (events : List PageEvent) :
    1 ≤ (runItemsPage events).page ∧
    ∀ P : Nat, 1 ≤ P →
      (events.all fun e =>
        match e with
        | PageEvent.response pg => decide (pg = P)
        | _ => true) = true →
      ∀ pg, (runItemsPage events).dataPages = some pg →
        (runItemsPage events).page ≤ pg := by
  constructor
  · exact foldl_itemsPage_page_pos events ⟨1, none⟩ (le_refl 1)
  · intro P hP hall pg hpg
    have hinv := foldl_itemsPage_inv P hP events ⟨1, none⟩
      ⟨hP, fun pg' h' => Option.noConfusion h'⟩ hall
    have hpg' := hinv.2 pg hpg
    rw [hpg']
    exact hinv.1

/-- C10, witness: with constant responses reporting 2 pages, after a
next click and a refetch the page is within bounds. -/
theorem c10_witness :
    (runItemsPage [.response 2, .nextClick, .response 2]).page ≤ 2 :=
  (c10_page_bounds [.response 2, .nextClick, .response 2]).2
    2 (by decide) (by decide) 2 (by decide)

end Arbitraggio
